import Mathlib

/-
  Verification of the databaser repository: a shallow embedding of the
  schema model (db_entities.py), the key-value storages (storages.py),
  the transporter (transporters.py) and the settings module (settings.py),
  together with theorems settling the frozen specification claims.
-/

namespace Databaser

/-
  Constraint kinds used by the schema model.  The repository reads them
  from core/enums.py (ConstraintTypesEnum); only the three constraint
  kinds below are ever consulted by the embedded functions, and no claim
  depends on their concrete string values.
-/
inductive ConstraintTypesEnum
  | primaryKey
  | foreignKey
  | unique
deriving DecidableEq, Repr

/-
  The in-memory kind tag of a key-value store: storages.py defines the
  scratch-table variant (StorageDataTable) and the in-memory variant
  (StorageList).
-/
inductive StorageKind
  | dataTable
  | list
deriving DecidableEq, Repr

/-
  storages.py, create_storage: returns a new storage according to the
  selected settings (USE_DATABASE_FOR_STORE_INTERMEDIATE_VALUES).
-/
def create_storage (use_database_for_store_intermediate_values : Bool) : StorageKind :=
  if use_database_for_store_intermediate_values then StorageKind.dataTable
  else StorageKind.list

/-
  db_entities.py, DBColumn.  constraint_table holds the NAME of the
  referent table (the Python object graph is represented through
  name-indexed lookups, as the design notes of the spec mandate);
  constraint_type is the list of constraint kinds appended so far.
  is_key_column_v is the value of the lru-cached is_key_column property:
  in the source it is computed at most once, at the first evaluation
  inside append_column, which happens in the call creating the column
  (whenever the owning table has no key column yet); we therefore store
  the value computed from the creation-time state.
-/
structure DBColumn where
  name : String
  table_name : String
  data_type : String
  ordinal_position : Nat
  constraint_table : Option String
  constraint_type : List ConstraintTypesEnum
  is_key_column_v : Bool
deriving DecidableEq, Repr

def DBColumn.is_foreign_key (c : DBColumn) : Bool :=
  decide (ConstraintTypesEnum.foreignKey ∈ c.constraint_type)

def DBColumn.is_primary_key (c : DBColumn) : Bool :=
  decide (ConstraintTypesEnum.primaryKey ∈ c.constraint_type)

def DBColumn.is_unique (c : DBColumn) : Bool :=
  decide (ConstraintTypesEnum.unique ∈ c.constraint_type) ||
    (c.is_foreign_key && c.is_primary_key)

def DBColumn.is_self_fk (c : DBColumn) : Bool :=
  c.is_foreign_key && decide (c.constraint_table = some c.table_name)

/-
  db_entities.py, class StorageDataTable (the copy local to db_entities,
  used for DBTable.need_transfer_pks; behaviourally identical to the
  storages.py class except that its delete does not reset the cached
  flag).  The rows themselves live in the destination database, so here
  the instance state is only the group id and the cached emptiness flag.
-/
structure StorageDataTable where
  group : Nat
  have_value : Bool
deriving DecidableEq, Repr

/-
  db_entities.py, DBTable.  revert_foreign_tables maps the name of a
  referencing table to the set of (table name, column name) pairs of the
  columns in that table which reference this table.
-/
structure DBTable where
  name : String
  full_count : Nat
  max_pk : Nat
  columns : List DBColumn
  key_column : Option String
  revert_foreign_tables : List (String × List (String × String))
  need_transfer_pks_kind : StorageKind
  need_transfer_pks : StorageDataTable
  transferred_pks_count : Nat
deriving DecidableEq, Repr

/-
  db_entities.py, DBTable.__init__: a fresh table with empty columns and
  revert map.  need_transfer_pks is constructed as StorageDataTable()
  unconditionally; the class-level counter _last_group_number is threaded
  explicitly, so the fresh storage receives group last_group_number + 1.
-/
def DBTable.init (name : String) (last_group_number : Nat) : DBTable :=
  { name := name
    full_count := 0
    max_pk := 0
    columns := []
    key_column := none
    revert_foreign_tables := []
    need_transfer_pks_kind := StorageKind.dataTable
    need_transfer_pks := { group := last_group_number + 1, have_value := false }
    transferred_pks_count := 0 }

/-
  db_entities.py, DBTable.primary_key: filters the columns carrying the
  PRIMARY_KEY constraint whose data type is not date, and returns the
  first such column if any.
-/
def DBTable.primary_key (t : DBTable) : Option DBColumn :=
  (t.columns.filter (fun c =>
    decide (ConstraintTypesEnum.primaryKey ∈ c.constraint_type) &&
      decide (c.data_type ≠ "date"))).head?

/-
  helpers.py, make_chunks: splits a sequence into chunks, each holding
  the next element of the iterator followed by up to size - 1 further
  elements.
-/
def makeChunks {α : Type} (l : List α) (size : Nat) : List (List α) :=
  match l with
  | [] => []
  | x :: xs => (x :: xs.take (size - 1)) :: makeChunks (xs.drop (size - 1)) size
termination_by l.length
decreasing_by simp [List.length_drop]; omega

/-
  The rows of the scratch table storage_data on the destination database:
  pairs (group_id, data).  The UNIQUE (group_id, data) constraint together
  with INSERT ON CONFLICT DO NOTHING gives the table set semantics.
-/
def DstState : Type := Finset (Nat × String)

instance : Membership (Nat × String) DstState := inferInstanceAs (Membership _ (Finset _))
instance : HasSubset DstState := inferInstanceAs (HasSubset (Finset _))
instance : Union DstState := inferInstanceAs (Union (Finset _))
instance : EmptyCollection DstState := inferInstanceAs (EmptyCollection (Finset _))

/- Rows of the scratch table belonging to one group (WHERE group_id = g). -/
def groupRows (st : DstState) (g : Nat) : Finset (Nat × String) :=
  Finset.filter (fun r => r.1 = g) st

/- The data values stored for one group (SELECT data WHERE group_id = g). -/
def groupData (st : DstState) (g : Nat) : Finset String :=
  (groupRows st g).image Prod.snd

/-
  storages.py / db_entities.py, StorageDataTable.insert: INSERT rows
  (group, d) ON CONFLICT DO NOTHING; an empty input issues no SQL.
  Identifiers are stored through their string representation.
-/
def StorageDataTable.insert (s : StorageDataTable) (st : DstState) (data : List String) :
    DstState :=
  if data.isEmpty then st
  else st ∪ (data.map (fun d => (s.group, d))).toFinset

/-
  storages.py, StorageDataTable.delete: DELETE FROM storage_data WHERE
  group_id = group, then reset the cached emptiness flag.
-/
def StorageDataTable.delete (s : StorageDataTable) (st : DstState) :
    DstState × StorageDataTable :=
  (Finset.filter (fun r => r.1 ≠ s.group) st, { s with have_value := false })

/- storages.py, StorageDataTable.len: SELECT count(*) WHERE group_id = group. -/
def StorageDataTable.len (s : StorageDataTable) (st : DstState) : Nat :=
  (groupRows st s.group).card

/-
  storages.py, StorageDataTable.is_not_empty: a positive result is cached
  in _have_value; otherwise the EXISTS query is issued and its result
  cached.  Returns the answer together with the updated instance.
-/
def StorageDataTable.is_not_empty (s : StorageDataTable) (st : DstState) :
    Bool × StorageDataTable :=
  if s.have_value then (s.have_value, s)
  else
    let b := decide (groupRows st s.group).Nonempty
    (b, { s with have_value := b })

/-
  storages.py, StorageDataTable.__aiter__: SELECT data WHERE group_id =
  group ORDER BY data, paged by LIMIT chunk_size OFFSET chunk_size * step;
  the net effect is the lexicographically sorted data of the group split
  into chunks of chunk_size.
-/
def StorageDataTable.aiter (s : StorageDataTable) (st : DstState) (chunk_size : Nat) :
    List (List String) :=
  makeChunks ((groupData st s.group).sort (· ≤ ·)) chunk_size

/-
  storages.py, StorageDataTable.add_storage_data: iterates the chunks of
  the other storage and inserts each chunk.
-/
def StorageDataTable.add_storage_data (s : StorageDataTable) (other : StorageDataTable)
    (st : DstState) (chunk_size : Nat) : DstState :=
  (other.aiter st chunk_size).foldl (fun acc chunk => s.insert acc chunk) st

/-
  storages.py, class StorageList: the in-memory storage is a set of
  unique string identifiers.
-/
structure StorageList where
  storage : Finset String

/- storages.py, StorageList.insert: an empty input is ignored, otherwise set update. -/
def StorageList.insert (s : StorageList) (data : List String) : StorageList :=
  if data.isEmpty then s else { storage := s.storage ∪ data.toFinset }

/- storages.py, StorageList.add_storage_data: set update from the other storage. -/
def StorageList.add_storage_data (s other : StorageList) : StorageList :=
  { storage := s.storage ∪ other.storage }

/- storages.py, StorageList.delete: clears the set. -/
def StorageList.delete (_s : StorageList) : StorageList :=
  { storage := ∅ }

/- storages.py, StorageList.is_not_empty: truthiness of the set. -/
def StorageList.is_not_empty (s : StorageList) : Bool :=
  decide s.storage.Nonempty

/- storages.py, StorageList.len: cardinality of the set. -/
def StorageList.len (s : StorageList) : Nat :=
  s.storage.card

/-
  storages.py, StorageList.__aiter__: iterates the set in chunks of
  chunk_size; the Python set iteration order is unspecified, so the
  embedding iterates in the canonical sorted order (the Collector must
  not assume any ordering).
-/
def StorageList.aiter (s : StorageList) (chunk_size : Nat) : List (List String) :=
  makeChunks (s.storage.sort (· ≤ ·)) chunk_size

/-
  db_entities.py, DBTable.update_need_transfer_pks: the argument is
  either another storage or an iterable of identifiers; the isinstance
  dispatch copies from the storage or inserts the values.
-/
inductive NeedTransferArg
  | storage (other : StorageDataTable)
  | values (data : List String)

def DBTable.update_need_transfer_pks (t : DBTable) (st : DstState)
    (arg : NeedTransferArg) (chunk_size : Nat) : DstState :=
  match arg with
  | NeedTransferArg.storage other =>
      t.need_transfer_pks.add_storage_data other st chunk_size
  | NeedTransferArg.values data =>
      t.need_transfer_pks.insert st data

/-
  settings.py slice consumed by append_column: KEY_TABLE_NAME and
  KEY_COLUMN_NAMES drive DBColumn.is_key_column.
-/
structure KeyConfig where
  key_table_name : String
  key_column_names : List String
deriving DecidableEq, Repr

/-
  The table map of a database (BaseDatabase.tables): a name-indexed
  association list, as the design notes of the spec mandate for the
  bidirectional FK graph.
-/
def Database : Type := List (String × DBTable)

instance : DecidableEq Database := inferInstanceAs (DecidableEq (List (String × DBTable)))
instance : Membership (String × DBTable) Database :=
  inferInstanceAs (Membership _ (List (String × DBTable)))

/- Lookup of self.tables by table name (dict access / dict.get). -/
def lookupTable : Database → String → Option DBTable
  | [], _ => none
  | (n, t) :: rest, m => if m = n then some t else lookupTable rest m

/- In-place mutation of the table stored under a name. -/
def updateTable (db : Database) (name : String) (f : DBTable → DBTable) : Database :=
  db.map (fun p => if p.1 = name then (p.1, f p.2) else p)

/-
  Lookup in a revert_foreign_tables map; the source uses a
  defaultdict(set), so a missing key reads as the empty set.
-/
def revertLookup : List (String × List (String × String)) → String → List (String × String)
  | [], _ => []
  | (k, xs) :: rest, m => if m = k then xs else revertLookup rest m

/- Adding one column reference to a revert_foreign_tables map (set add). -/
def revertAdd (rv : List (String × List (String × String))) (k : String)
    (x : String × String) : List (String × List (String × String)) :=
  match rv with
  | [] => [(k, [x])]
  | (k1, xs) :: rest =>
      if k1 = k then (k1, if x ∈ xs then xs else xs ++ [x]) :: rest
      else (k1, xs) :: revertAdd rest k x

/-
  One introspection record handed to DBTable.append_column by
  DstDatabase._prepare_chunk_tables.
-/
structure AppendOp where
  table_name : String
  column_name : String
  data_type : String
  ordinal_position : Nat
  constraint_table_name : Option String
  constraint_type : Option ConstraintTypesEnum
deriving DecidableEq, Repr

/-
  db_entities.py, the caller resolves constraint_table through
  self.tables.get(constraint_table_name): an unknown or missing name
  yields no referent table.
-/
def resolveConstraintTable (db : Database) (ctn : Option String) : Option String :=
  match ctn with
  | none => none
  | some n => if (lookupTable db n).isSome then some n else none

/-
  db_entities.py, append_column, branch for a column that already exists:
  the constraint type is appended and, for FOREIGN_KEY, the referent is
  replaced.
-/
def applyConstraint (ref : Option String) (ct : Option ConstraintTypesEnum)
    (c0 : DBColumn) : DBColumn :=
  match ct with
  | none => c0
  | some ct1 =>
      if ct1 = ConstraintTypesEnum.foreignKey then
        { c0 with constraint_type := c0.constraint_type ++ [ct1], constraint_table := ref }
      else
        { c0 with constraint_type := c0.constraint_type ++ [ct1] }

/-
  db_entities.py, append_column, branch creating a new column: the ARRAY
  data type reported by postgresql is normalised, and the cached
  is_key_column value is computed from the creation-time state
  (name listed in KEY_COLUMN_NAMES, or referent named KEY_TABLE_NAME).
-/
def mkNewColumn (cfg : KeyConfig) (op : AppendOp) (ref : Option String) : DBColumn :=
  { name := op.column_name
    table_name := op.table_name
    data_type := if op.data_type = "ARRAY" then "integer array" else op.data_type
    ordinal_position := op.ordinal_position
    constraint_table := ref
    constraint_type := op.constraint_type.toList
    is_key_column_v :=
      decide (op.column_name ∈ cfg.key_column_names) ||
        decide (ref = some cfg.key_table_name) }

/-
  The column produced by append_column together with the updated columns
  map of the owning table.
-/
def pendingColumn (cfg : KeyConfig) (t : DBTable) (op : AppendOp) (ref : Option String) :
    DBColumn × List DBColumn :=
  match t.columns.find? (fun c => c.name = op.column_name) with
  | some c0 =>
      (applyConstraint ref op.constraint_type c0,
        t.columns.map (fun c =>
          if c.name = op.column_name then applyConstraint ref op.constraint_type c0 else c))
  | none =>
      (mkNewColumn cfg op ref, t.columns ++ [mkNewColumn cfg op ref])

/-
  The owning table after append_column updated its columns and possibly
  its key column (when no key column is set yet and the appended column
  is a key column).
-/
def updatedTable (t : DBTable) (pc : DBColumn × List DBColumn) : DBTable :=
  if t.key_column = none ∧ pc.1.is_key_column_v then
    { t with columns := pc.2, key_column := some pc.1.name }
  else
    { t with columns := pc.2 }

/-
  Registration of one foreign key column in the revert_foreign_tables of
  its referent table.
-/
def registerRevert (db : Database) (refName tname cname : String) : Database :=
  updateTable db refName (fun rt =>
    { rt with
      revert_foreign_tables := revertAdd rt.revert_foreign_tables tname (tname, cname) })

/-
  db_entities.py, DBTable.append_column: updates or creates the column,
  then, when the column is a foreign key, registers it in the referent
  table revert_foreign_tables under the owning table; a foreign key
  column without a referent table raises AttributeError (fatal), and an
  unknown owning table raises KeyError at the caller table access.
-/
def appendColumn (cfg : KeyConfig) (db : Database) (op : AppendOp) :
    Except String Database :=
  match lookupTable db op.table_name with
  | none => Except.error ("KeyError: " ++ op.table_name)
  | some t =>
      if (pendingColumn cfg t op (resolveConstraintTable db op.constraint_table_name)).1.is_foreign_key then
        match (pendingColumn cfg t op (resolveConstraintTable db op.constraint_table_name)).1.constraint_table with
        | none => Except.error ("Wrong foreign key column " ++ op.column_name)
        | some refName =>
            Except.ok (registerRevert
              (updateTable db op.table_name
                (fun _ => updatedTable t
                  (pendingColumn cfg t op (resolveConstraintTable db op.constraint_table_name))))
              refName op.table_name
              (pendingColumn cfg t op (resolveConstraintTable db op.constraint_table_name)).1.name)
      else
        Except.ok (updateTable db op.table_name
          (fun _ => updatedTable t
            (pendingColumn cfg t op (resolveConstraintTable db op.constraint_table_name))))

/- Sequential processing of introspection records through append_column. -/
def processOps (cfg : KeyConfig) (db : Database) : List AppendOp → Except String Database
  | [] => Except.ok db
  | op :: rest =>
      match appendColumn cfg db op with
      | Except.error e => Except.error e
      | Except.ok db1 => processOps cfg db1 rest

/-
  db_entities.py, DstDatabase.prepare_tables: one fresh DBTable per
  discovered table name; each construction advances the process-global
  storage group counter.
-/
def initDatabase : List String → Nat → Database
  | [], _ => []
  | n :: rest, g0 => (n, DBTable.init n g0) :: initDatabase rest (g0 + 1)

/-
  The introspection invariant of the spec: every foreign key column has a
  referent table present in the model and is registered in that referent
  revert_foreign_tables under its owning table.
-/
def columnOk (db : Database) (tname : String) (c : DBColumn) : Bool :=
  if c.is_foreign_key then
    match c.constraint_table with
    | none => false
    | some ref =>
        match lookupTable db ref with
        | none => false
        | some rt =>
            decide ((tname, c.name) ∈ revertLookup rt.revert_foreign_tables tname)
  else true

def invariantHolds (db : Database) : Bool :=
  (db : List (String × DBTable)).all (fun p => p.2.columns.all (columnOk db p.1))

/-
  db_entities.py, DBTable.with_key_column: truthiness of the key column
  found during introspection.
-/
def DBTable.with_key_column (t : DBTable) : Bool :=
  t.key_column.isSome

/- db_entities.py, DBTable.not_self_fk_columns. -/
def DBTable.not_self_fk_columns (t : DBTable) : List DBColumn :=
  t.columns.filter (fun c => c.is_foreign_key && !c.is_self_fk)

/- db_entities.py, DBTable.unique_fk_columns. -/
def DBTable.unique_fk_columns (t : DBTable) : List DBColumn :=
  t.not_self_fk_columns.filter (fun c => c.is_foreign_key && c.is_unique)

/-
  Whether the referent table of a column has a key column
  (c.constraint_table.with_key_column in the source; the referent is
  resolved by name, and by the introspection invariant a foreign key
  column always has one).
-/
def constraintTableWithKeyColumn (db : Database) (c : DBColumn) : Bool :=
  match c.constraint_table with
  | none => false
  | some n =>
      match lookupTable db n with
      | none => false
      | some rt => rt.with_key_column

/- db_entities.py, DBTable.fk_columns_with_key_column. -/
def fk_columns_with_key_column (db : Database) (t : DBTable) : List DBColumn :=
  t.not_self_fk_columns.filter (constraintTableWithKeyColumn db)

/-
  db_entities.py, DBTable.unique_fk_columns_with_key_column: intersection
  of the unique foreign key columns with the foreign key columns to
  tables with key column (the source materialises a set intersection; the
  embedding keeps the unique_fk_columns order).
-/
def unique_fk_columns_with_key_column (db : Database) (t : DBTable) : List DBColumn :=
  t.unique_fk_columns.filter (fun c => decide (c ∈ fk_columns_with_key_column db t))

/-
  The inner loop shared by the two-hop classifications: for one foreign
  key column, one copy of the column per foreign key column of its
  referent whose own referent has a key column.
-/
def twoHopCopies (db : Database) (c : DBColumn) : List DBColumn :=
  match c.constraint_table with
  | none => []
  | some n =>
      match lookupTable db n with
      | none => []
      | some ct =>
          (ct.not_self_fk_columns.filter (constraintTableWithKeyColumn db)).map (fun _ => c)

/- db_entities.py, DBTable.fk_columns_tables_with_fk_columns_with_key_column. -/
def fk_columns_tables_with_fk_columns_with_key_column (db : Database) (t : DBTable) :
    List DBColumn :=
  (t.not_self_fk_columns.map (twoHopCopies db)).flatten

/- db_entities.py, DBTable.unique_fk_columns_tables_with_fk_columns_with_key_column. -/
def unique_fk_columns_tables_with_fk_columns_with_key_column (db : Database) (t : DBTable) :
    List DBColumn :=
  (t.unique_fk_columns.map (twoHopCopies db)).flatten

/-
  db_entities.py, DBTable.highest_priority_fk_columns: the if-elif chain
  of the source, with list truthiness rendered as inequality with the
  empty list.
-/
def highest_priority_fk_columns (db : Database) (t : DBTable) : List DBColumn :=
  if unique_fk_columns_with_key_column db t ≠ [] then
    unique_fk_columns_with_key_column db t
  else if unique_fk_columns_tables_with_fk_columns_with_key_column db t ≠ [] ∨
      fk_columns_with_key_column db t ≠ [] then
    (if unique_fk_columns_tables_with_fk_columns_with_key_column db t ≠ [] then
        unique_fk_columns_tables_with_fk_columns_with_key_column db t
      else []) ++
    (if fk_columns_with_key_column db t ≠ [] then fk_columns_with_key_column db t else [])
  else if fk_columns_tables_with_fk_columns_with_key_column db t ≠ [] then
    fk_columns_tables_with_fk_columns_with_key_column db t
  else
    t.not_self_fk_columns

/-
  Modelled from the claim wording for comparison: the first non-empty of
  unique+direct, union of unique+two-hop and direct, two-hop, and the
  default of all non-self foreign key columns.
-/
def highest_priority_fk_columns_spec (db : Database) (t : DBTable) : List DBColumn :=
  if unique_fk_columns_with_key_column db t ≠ [] then
    unique_fk_columns_with_key_column db t
  else if unique_fk_columns_tables_with_fk_columns_with_key_column db t ++
      fk_columns_with_key_column db t ≠ [] then
    unique_fk_columns_tables_with_fk_columns_with_key_column db t ++
      fk_columns_with_key_column db t
  else if fk_columns_tables_with_fk_columns_with_key_column db t ≠ [] then
    fk_columns_tables_with_fk_columns_with_key_column db t
  else
    t.not_self_fk_columns

/-
  settings.py slice consumed by DstDatabase.truncate_tables.
-/
structure TruncateConfig where
  is_truncate_tables : Bool
  tables_truncate_included : List String
  tables_truncate_excluded : List String
  tables_with_generic_foreign_key : List String
deriving DecidableEq, Repr

/-
  db_entities.py, DstDatabase.truncate_tables: the names for which a
  TRUNCATE statement is issued.  Nothing is truncated unless
  IS_TRUNCATE_TABLES; the base list is the include list when non-empty,
  otherwise all discovered names outside the generic-FK set; the exclude
  filter is applied only when the exclude list is non-empty.
-/
def truncate_tables (cfg : TruncateConfig) (table_names : List String) : List String :=
  if cfg.is_truncate_tables then
    (if cfg.tables_truncate_excluded ≠ [] then
      (if cfg.tables_truncate_included ≠ [] then cfg.tables_truncate_included
        else table_names.filter
          (fun n => decide (n ∉ cfg.tables_with_generic_foreign_key))).filter
        (fun n => decide (n ∉ cfg.tables_truncate_excluded))
    else
      (if cfg.tables_truncate_included ≠ [] then cfg.tables_truncate_included
        else table_names.filter
          (fun n => decide (n ∉ cfg.tables_with_generic_foreign_key))))
  else []

/-
  Modelled from the claim wording for comparison: the exclude filter is
  applied unconditionally.
-/
def truncate_tables_spec (cfg : TruncateConfig) (table_names : List String) : List String :=
  if cfg.is_truncate_tables then
    (if cfg.tables_truncate_included ≠ [] then cfg.tables_truncate_included
      else table_names.filter
        (fun n => decide (n ∉ cfg.tables_with_generic_foreign_key))).filter
      (fun n => decide (n ∉ cfg.tables_truncate_excluded))
  else []

/-
  settings.py: the resolved values of the thirteen required parameters
  (connection parameters are stripped environment strings, the key
  parameters are a string and two parsed comma-separated tuples).
-/
structure SettingsEnv where
  src_db_host : String
  src_db_port : String
  src_db_name : String
  src_db_user : String
  src_db_password : String
  dst_db_host : String
  dst_db_port : String
  dst_db_name : String
  dst_db_user : String
  dst_db_password : String
  key_table_name : String
  key_column_names : List String
  key_column_values : List Int
deriving DecidableEq, Repr

/-
  settings.py, the list built at module level for the required-parameter
  check, reduced to the truthiness of each entry.
-/
def requiredParamsTruthiness (e : SettingsEnv) : List Bool :=
  [decide (e.src_db_host ≠ ""), decide (e.src_db_port ≠ ""), decide (e.src_db_name ≠ ""),
    decide (e.src_db_user ≠ ""), decide (e.src_db_password ≠ ""),
    decide (e.dst_db_host ≠ ""), decide (e.dst_db_port ≠ ""), decide (e.dst_db_name ≠ ""),
    decide (e.dst_db_user ≠ ""), decide (e.dst_db_password ≠ ""),
    decide (e.key_table_name ≠ ""), decide (e.key_column_names ≠ []),
    decide (e.key_column_values ≠ [])]

/-
  settings.py module level: ValueError is raised when not any of the
  required parameters is truthy.
-/
def settingsRaisesStartupError (e : SettingsEnv) : Bool :=
  !(requiredParamsTruthiness e).any id

/-
  Modelled from the spec: missing any required connection/key parameter
  is a fatal startup error, so the error should fire whenever at least
  one entry is not truthy.
-/
def missingAnyRequiredParam (e : SettingsEnv) : Bool :=
  !(requiredParamsTruthiness e).all id

/-
  db_entities.py, DBTable.set_max_sequence, reduced to the setval it
  issues: a table whose primary_key is None hits AttributeError on
  .name, logs a warning and returns; otherwise the serial sequence name
  is fetched and, when present and truthy, setval(seq, max_pk + 100000)
  is executed.  The result is the issued (sequence name, value), if any.
-/
def set_max_sequence (t : DBTable) (serial_seq_name : Option String) :
    Option (String × Nat) :=
  match t.primary_key with
  | none => none
  | some _ =>
      match serial_seq_name with
      | none => none
      | some s => if s ≠ "" then some (s, t.max_pk + 100000) else none

/-
  transporters.py, Transporter._transfer_table_data, reduced to its
  state effect: when the table has no primary key a warning is logged
  and the function returns with nothing issued; otherwise one transfer
  statement is issued per chunk of need_transfer_pks, and
  transferred_pks_count grows by the number of returned ids of each
  non-empty result (fetch plays the role of the destination database
  executing the cross-database insert and returning the inserted pks).
  The second component lists the chunks for which a transfer statement
  was issued; the destination database is only written through those.
-/
def transfer_table_data (fetch : List String → List String) (t : DBTable)
    (chunks : List (List String)) : DBTable × List (List String) :=
  match t.primary_key with
  | none => (t, [])
  | some _ =>
      chunks.foldl
        (fun acc chunk =>
          (if !(fetch chunk).isEmpty then
            { acc.1 with
              transferred_pks_count := acc.1.transferred_pks_count + (fetch chunk).length }
          else acc.1, acc.2 ++ [chunk]))
        (t, [])

/-
  Preservation relation for the introspection proofs: every table keeps
  its entry and its revert_foreign_tables only grow.
-/
def DbExtends (db db2 : Database) : Prop :=
  ∀ n rt, lookupTable db n = some rt →
    ∃ rt2, lookupTable db2 n = some rt2 ∧
      ∀ k x, x ∈ revertLookup rt.revert_foreign_tables k →
        x ∈ revertLookup rt2.revert_foreign_tables k

/- Example environment: only the source host is provided. -/
def hostOnlyEnv : SettingsEnv :=
  { src_db_host := "localhost", src_db_port := "", src_db_name := "", src_db_user := "",
    src_db_password := "", dst_db_host := "", dst_db_port := "", dst_db_name := "",
    dst_db_user := "", dst_db_password := "", key_table_name := "",
    key_column_names := [], key_column_values := [] }

/- Example environment: nothing is provided. -/
def allEmptyEnv : SettingsEnv :=
  { hostOnlyEnv with src_db_host := "" }

/- Example column: a plain integer primary key. -/
def pkExampleColumn : DBColumn :=
  { name := "id", table_name := "t1", data_type := "integer", ordinal_position := 1,
    constraint_table := none, constraint_type := [ConstraintTypesEnum.primaryKey],
    is_key_column_v := false }

/- Example table with a primary key and a known max pk. -/
def seqExampleTable : DBTable :=
  { DBTable.init "t1" 0 with columns := [pkExampleColumn], max_pk := 42 }

/- Example table without any column, hence without a primary key. -/
def noPkTable : DBTable :=
  DBTable.init "no_pk" 0

/- Example introspection run for the invariant witness. -/
def exC4Cfg : KeyConfig :=
  { key_table_name := "key_tbl", key_column_names := ["key_id"] }

def exC4Names : List String :=
  ["key_tbl", "child"]

def exC4Ops : List AppendOp :=
  [{ table_name := "key_tbl", column_name := "id", data_type := "integer",
      ordinal_position := 1, constraint_table_name := none,
      constraint_type := some ConstraintTypesEnum.primaryKey },
    { table_name := "child", column_name := "id", data_type := "integer",
      ordinal_position := 1, constraint_table_name := none,
      constraint_type := some ConstraintTypesEnum.primaryKey },
    { table_name := "child", column_name := "key_id", data_type := "integer",
      ordinal_position := 2, constraint_table_name := some "key_tbl",
      constraint_type := some ConstraintTypesEnum.foreignKey }]

def exC4Db : Database :=
  (processOps exC4Cfg (initDatabase exC4Names 0) exC4Ops).toOption.getD []

/- Example record whose foreign key referent is not in the model. -/
def badRefOp : AppendOp :=
  { table_name := "child", column_name := "ghost_id", data_type := "integer",
    ordinal_position := 3, constraint_table_name := some "ghost",
    constraint_type := some ConstraintTypesEnum.foreignKey }

end Databaser

namespace Databaser

/- Auxiliary list lemma: head of a filter is the first match. -/
theorem list_head?_filter {α : Type} (p : α → Bool) (l : List α) :
    (l.filter p).head? = l.find? p := by
  induction l with
  | nil => rfl
  | cons x xs ih =>
      by_cases h : p x <;> simp [List.filter_cons, List.find?, h, ih]

/-- C6: for every table, primary_key is the first column in the columns
mapping iteration order that carries the PRIMARY_KEY constraint and whose
data type is not date; if no such column exists, primary_key is none. -/
theorem primary_key_is_first_non_date_pk (t : DBTable) :
    t.primary_key = t.columns.find? (fun c =>
      decide (ConstraintTypesEnum.primaryKey ∈ c.constraint_type) &&
        decide (c.data_type ≠ "date")) := by
  unfold DBTable.primary_key
  exact list_head?_filter _ _

/-- C1 counterexample: with USE_DATABASE_FOR_STORE_INTERMEDIATE_VALUES set
to false, create_storage would return the in-memory variant, but the
need_transfer_pks store of a freshly constructed DBTable is the
scratch-table variant, so the claim fails at this input. -/
theorem need_transfer_pks_not_selected_by_flag :
    (DBTable.init "some_table" 0).need_transfer_pks_kind ≠ create_storage false := by
  decide

/-- C1 amended: create_storage selects the scratch-table variant exactly
when the flag is set, but DBTable.__init__ constructs its
need_transfer_pks as the scratch-table variant unconditionally,
independently of the flag. -/
theorem create_storage_flag_and_dbtable_store :
    (∀ b, create_storage b = if b then StorageKind.dataTable else StorageKind.list) ∧
    ∀ (name : String) (g : Nat),
      (DBTable.init name g).need_transfer_pks_kind = StorageKind.dataTable :=
  ⟨fun _ => rfl, fun _ _ => rfl⟩

/-- C2: the settings module raises the startup error only when all
thirteen required parameters are empty (not any); an environment in which
only the source host is set has missing required parameters and yet does
not raise, contradicting the claim, while the all-empty environment does
raise. -/
theorem settings_check_not_any_bug :
    settingsRaisesStartupError hostOnlyEnv = false ∧
      missingAnyRequiredParam hostOnlyEnv = true ∧
      settingsRaisesStartupError allEmptyEnv = true := by
  decide

/-- C7: the truncated table names equal the include list when non-empty,
otherwise the discovered names outside the generic-FK set, in both cases
with the exclude list removed; nothing is truncated when the flag is
unset. -/
theorem truncate_tables_eq_spec (cfg : TruncateConfig) (tns : List String) :
    truncate_tables cfg tns = truncate_tables_spec cfg tns := by
  unfold truncate_tables truncate_tables_spec
  by_cases ht : cfg.is_truncate_tables
  · simp only [ht, if_true]
    by_cases he : cfg.tables_truncate_excluded ≠ []
    · simp [he]
    · push_neg at he
      simp [he, List.filter_true]
  · simp [ht]

/-- C9: a table whose primary_key is none is skipped by
_transfer_table_data: no transfer statement is issued and the table
state, including transferred_pks_count, is returned unchanged, so the
destination rows are untouched. -/
theorem transfer_table_data_skips_no_pk (fetch : List String → List String)
    (t : DBTable) (chunks : List (List String)) (h : t.primary_key = none) :
    transfer_table_data fetch t chunks = (t, []) := by
  unfold transfer_table_data
  rw [h]

/-- Witness for C9: a table without columns has no primary key and is
returned unchanged with no statements issued. -/
theorem transfer_table_data_skips_no_pk_witness :
    transfer_table_data (fun c => c) noPkTable [["1", "2"]] = (noPkTable, []) :=
  transfer_table_data_skips_no_pk (fun c => c) noPkTable [["1", "2"]] rfl

/-- C3: highest_priority_fk_columns is the first non-empty of the unique
direct columns, the union of the unique two-hop and the direct columns,
the two-hop columns, and all non-self foreign key columns, realising the
priority order of the spec. -/
theorem highest_priority_fk_columns_eq_spec (db : Database) (t : DBTable) :
    highest_priority_fk_columns db t = highest_priority_fk_columns_spec db t := by
  unfold highest_priority_fk_columns highest_priority_fk_columns_spec
  by_cases h1 : unique_fk_columns_with_key_column db t ≠ []
  · simp [h1]
  · push_neg at h1
    by_cases h2u : unique_fk_columns_tables_with_fk_columns_with_key_column db t = [] <;>
      by_cases h2d : fk_columns_with_key_column db t = [] <;>
        simp [h1, h2u, h2d]

/-- C8: set_max_sequence issues setval(sequence, max_pk + 100000) exactly
when the table has a primary key and the fetched serial sequence name is
present and non-empty, so the issued value is at least max_pk + 100000;
tables without a primary key or without a serial sequence issue nothing. -/
theorem set_max_sequence_spec_thm (t : DBTable) (seq : Option String) :
    (∀ s, t.primary_key.isSome → seq = some s → s ≠ "" →
        set_max_sequence t seq = some (s, t.max_pk + 100000)) ∧
    (∀ s v, set_max_sequence t seq = some (s, v) → t.max_pk + 100000 ≤ v) ∧
    (t.primary_key = none → set_max_sequence t seq = none) ∧
    (seq = none → set_max_sequence t seq = none) ∧
    (seq = some "" → set_max_sequence t seq = none) := by
  refine ⟨?_, ?_, ?_, ?_, ?_⟩
  · intro s hpk hseq hs
    subst hseq
    cases hp : t.primary_key with
    | none => rw [hp] at hpk; simp at hpk
    | some pk => simp [set_max_sequence, hp, hs]
  · intro s v h
    unfold set_max_sequence at h
    cases hp : t.primary_key with
    | none => rw [hp] at h; simp at h
    | some pk =>
        rw [hp] at h
        cases seq with
        | none => simp at h
        | some s1 =>
            by_cases hs1 : s1 ≠ "" <;> simp [hs1] at h
            omega
  · intro hp
    unfold set_max_sequence
    rw [hp]
  · intro hseq
    subst hseq
    unfold set_max_sequence
    cases t.primary_key <;> rfl
  · intro hseq
    subst hseq
    unfold set_max_sequence
    cases t.primary_key <;> simp

/-- Witness for C8: a table with integer primary key and max pk 42
receives setval to 100042 on its sequence. -/
theorem set_max_sequence_spec_thm_witness :
    set_max_sequence seqExampleTable (some "t1_id_seq") =
      some ("t1_id_seq", seqExampleTable.max_pk + 100000) :=
  (set_max_sequence_spec_thm seqExampleTable (some "t1_id_seq")).1 "t1_id_seq"
    (by decide) rfl (by decide)

/- Inserting into the scratch table only adds rows. -/
theorem sdt_insert_superset (s : StorageDataTable) (st : DstState) (data : List String) :
    st ⊆ s.insert st data := by
  unfold StorageDataTable.insert
  split
  · exact Finset.Subset.refl _
  · exact Finset.subset_union_left

/- A fold of scratch-table inserts only adds rows. -/
theorem sdt_foldl_insert_superset (s : StorageDataTable) (st : DstState)
    (chunks : List (List String)) :
    st ⊆ chunks.foldl (fun acc chunk => s.insert acc chunk) st := by
  induction chunks generalizing st with
  | nil => exact Finset.Subset.refl _
  | cons chunk rest ih =>
      exact Finset.Subset.trans (sdt_insert_superset s st chunk) (ih _)

/- Group rows are monotone in the scratch-table state. -/
theorem groupRows_mono {st st2 : DstState} (h : st ⊆ st2) (g : Nat) :
    groupRows st g ⊆ groupRows st2 g :=
  Finset.filter_subset_filter _ h

/- Group data is monotone in the scratch-table state. -/
theorem groupData_mono {st st2 : DstState} (h : st ⊆ st2) (g : Nat) :
    groupData st g ⊆ groupData st2 g :=
  Finset.image_subset_image (groupRows_mono h g)

/- update_need_transfer_pks only adds rows to the scratch-table state. -/
theorem update_need_transfer_pks_superset (t : DBTable) (st : DstState)
    (arg : NeedTransferArg) (cs : Nat) :
    st ⊆ t.update_need_transfer_pks st arg cs := by
  cases arg with
  | storage other =>
      exact sdt_foldl_insert_superset _ _ _
  | values data =>
      exact sdt_insert_superset _ _ _

/-- C5: every update_need_transfer_pks, insert or add_storage_data
operation on a need_transfer_pks store leaves the stored identifier set a
superset of what it was, so over any sequence of such operations the
store size is non-decreasing; the in-memory StorageList operations
likewise only grow the stored set. -/
theorem need_transfer_pks_monotone :
    (∀ (t : DBTable) (st : DstState) (arg : NeedTransferArg) (cs : Nat),
        groupData st t.need_transfer_pks.group ⊆
          groupData (t.update_need_transfer_pks st arg cs) t.need_transfer_pks.group) ∧
    (∀ (t : DBTable) (st : DstState) (args : List NeedTransferArg) (cs : Nat),
        t.need_transfer_pks.len st ≤
          t.need_transfer_pks.len
            (args.foldl (fun acc a => t.update_need_transfer_pks acc a cs) st)) ∧
    (∀ (s : StorageList) (data : List String), s.storage ⊆ (s.insert data).storage) ∧
    (∀ (s other : StorageList), s.storage ⊆ (s.add_storage_data other).storage) := by
  refine ⟨?_, ?_, ?_, ?_⟩
  · intro t st arg cs
    exact groupData_mono (update_need_transfer_pks_superset t st arg cs) _
  · intro t st args cs
    have hsub : st ⊆ args.foldl (fun acc a => t.update_need_transfer_pks acc a cs) st := by
      induction args generalizing st with
      | nil => exact Finset.Subset.refl _
      | cons a rest ih =>
          exact Finset.Subset.trans (update_need_transfer_pks_superset t st a cs) (ih _)
    exact Finset.card_le_card (groupRows_mono hsub _)
  · intro s data
    unfold StorageList.insert
    split
    · exact Finset.Subset.refl _
    · exact Finset.subset_union_left
  · intro s other
    exact Finset.subset_union_left

/- After a scratch-table delete no row of the group remains. -/
theorem groupRows_after_delete (st : DstState) (g : Nat) :
    groupRows (Finset.filter (fun r => r.1 ≠ g) st) g = ∅ := by
  unfold groupRows
  rw [Finset.filter_filter]
  refine Finset.filter_eq_empty_iff.mpr ?_
  intro x _
  rintro ⟨h1, h2⟩
  exact h1 h2

/-- C10: for both storage implementations, immediately after delete the
store is empty at the public interface: len is 0, is_not_empty is false
because the cached positive result was reset, and iteration yields no
chunks. -/
theorem storages_delete_empties :
    (∀ (s : StorageList) (cs : Nat),
        (s.delete).len = 0 ∧ (s.delete).is_not_empty = false ∧
          (s.delete).aiter cs = []) ∧
    (∀ (s : StorageDataTable) (st : DstState) (cs : Nat),
        (s.delete st).2.len (s.delete st).1 = 0 ∧
          ((s.delete st).2.is_not_empty (s.delete st).1).1 = false ∧
          (s.delete st).2.aiter (s.delete st).1 cs = []) := by
  constructor
  · intro s cs
    refine ⟨rfl, ?_, ?_⟩
    · simp [StorageList.delete, StorageList.is_not_empty]
    · simp [StorageList.delete, StorageList.aiter, Finset.sort_empty, makeChunks]
  · intro s st cs
    refine ⟨?_, ?_, ?_⟩
    · simp [StorageDataTable.delete, StorageDataTable.len, groupRows_after_delete]
    · simp [StorageDataTable.delete, StorageDataTable.is_not_empty, groupRows_after_delete]
    · simp [StorageDataTable.delete, StorageDataTable.aiter, groupData,
        groupRows_after_delete, Finset.sort_empty, makeChunks]

/- A successful lookup comes from a list entry. -/
theorem lookupTable_mem {db : Database} {m : String} {t : DBTable}
    (h : lookupTable db m = some t) : (m, t) ∈ db := by
  induction db with
  | nil => simp [lookupTable] at h
  | cons p rest ih =>
      obtain ⟨n, t1⟩ := p
      by_cases hm : m = n
      · subst hm
        simp [lookupTable] at h
        subst h
        exact List.mem_cons_self _ _
      · simp [lookupTable, hm] at h
        exact List.mem_cons_of_mem _ (ih h)

/- Lookup after an in-place table update. -/
theorem lookupTable_updateTable (db : Database) (n : String) (f : DBTable → DBTable)
    (m : String) :
    lookupTable (updateTable db n f) m =
      if m = n then (lookupTable db m).map f else lookupTable db m := by
  induction db with
  | nil =>
      simp [lookupTable, updateTable]
  | cons p rest ih =>
      obtain ⟨k, t⟩ := p
      have hhead : (if ((k, t) : String × DBTable).1 = n
            then (((k, t) : String × DBTable).1, f ((k, t) : String × DBTable).2)
            else ((k, t) : String × DBTable)) =
          (if k = n then (k, f t) else (k, t)) := by
        by_cases hk : k = n <;> simp [hk]
      unfold updateTable at ih ⊢
      rw [List.map_cons, hhead]
      by_cases hk : k = n
      · rw [if_pos hk]
        subst hk
        by_cases hm : m = k
        · subst hm
          simp [lookupTable]
        · simp [lookupTable, hm, ih]
      · rw [if_neg hk]
        by_cases hm : m = k
        · subst hm
          simp [lookupTable, hk]
        · simp [lookupTable, hm, ih]

/- The added pair is present after revertAdd. -/
theorem revertLookup_revertAdd_self (rv : List (String × List (String × String)))
    (k : String) (x : String × String) :
    x ∈ revertLookup (revertAdd rv k x) k := by
  induction rv with
  | nil => simp [revertAdd, revertLookup]
  | cons p rest ih =>
      obtain ⟨k1, xs⟩ := p
      by_cases hk : k1 = k
      · subst hk
        by_cases hx : x ∈ xs <;> simp [revertAdd, revertLookup, hx]
      · have hk2 : ¬ k = k1 := fun h => hk h.symm
        simp [revertAdd, revertLookup, hk, hk2, ih]

/- Existing pairs survive revertAdd. -/
theorem revertLookup_revertAdd_mono {rv : List (String × List (String × String))}
    {m : String} {y : String × String} (k : String) (x : String × String)
    (h : y ∈ revertLookup rv m) :
    y ∈ revertLookup (revertAdd rv k x) m := by
  induction rv with
  | nil => simp [revertLookup] at h
  | cons p rest ih =>
      obtain ⟨k1, xs⟩ := p
      by_cases hk : k1 = k
      · subst hk
        by_cases hm : m = k1
        · subst hm
          simp [revertLookup] at h
          by_cases hx : x ∈ xs <;> simp [revertAdd, revertLookup, hx, h]
        · simp [revertLookup, hm] at h
          simp [revertAdd, revertLookup, hm, h]
      · by_cases hm : m = k1
        · subst hm
          simp [revertLookup] at h
          simp [revertAdd, revertLookup, hk, h]
        · simp [revertLookup, hm] at h
          simp [revertAdd, revertLookup, hk, hm, ih h]

/- DbExtends is transitive. -/
theorem dbExtends_trans {a b c : Database} (h1 : DbExtends a b) (h2 : DbExtends b c) :
    DbExtends a c := by
  intro n rt h
  obtain ⟨rt2, hb, m1⟩ := h1 n rt h
  obtain ⟨rt3, hc, m2⟩ := h2 n rt2 hb
  exact ⟨rt3, hc, fun k x hx => m2 k x (m1 k x hx)⟩

/- Replacing one table by a revert-preserving value extends the database. -/
theorem dbExtends_updateTable_const {db : Database} {n : String} {t t2 : DBTable}
    (hlk : lookupTable db n = some t)
    (hrev : t2.revert_foreign_tables = t.revert_foreign_tables) :
    DbExtends db (updateTable db n (fun _ => t2)) := by
  intro m rt h
  rw [lookupTable_updateTable]
  by_cases hm : m = n
  · subst hm
    rw [if_pos rfl, h]
    refine ⟨t2, rfl, ?_⟩
    have ht : rt = t := by
      rw [h] at hlk
      exact Option.some.inj hlk
    subst ht
    rw [hrev]
    exact fun _ _ hx => hx
  · rw [if_neg hm]
    exact ⟨rt, h, fun _ _ hx => hx⟩

/- Registering a revert edge extends the database. -/
theorem dbExtends_registerRevert (db : Database) (refName tn cn : String) :
    DbExtends db (registerRevert db refName tn cn) := by
  intro m rt h
  unfold registerRevert
  rw [lookupTable_updateTable]
  by_cases hm : m = refName
  · rw [if_pos hm, h]
    exact ⟨_, rfl, fun k x hx => revertLookup_revertAdd_mono tn (tn, cn) hx⟩
  · rw [if_neg hm]
    exact ⟨rt, h, fun _ _ hx => hx⟩

/- Evaluation of columnOk on a non-foreign-key column. -/
theorem columnOk_of_not_fk {db : Database} {tn : String} {c : DBColumn}
    (hfk : ¬ c.is_foreign_key = true) : columnOk db tn c = true := by
  unfold columnOk
  rw [if_neg hfk]

/- Evaluation of columnOk on a foreign key column without referent. -/
theorem columnOk_fk_none {db : Database} {tn : String} {c : DBColumn}
    (hfk : c.is_foreign_key = true) (hct : c.constraint_table = none) :
    columnOk db tn c = false := by
  unfold columnOk
  rw [if_pos hfk, hct]

/- Evaluation of columnOk on a foreign key column with a referent name. -/
theorem columnOk_fk_some {db : Database} {tn : String} {c : DBColumn} {ref : String}
    (hfk : c.is_foreign_key = true) (hct : c.constraint_table = some ref) :
    columnOk db tn c =
      (match lookupTable db ref with
        | none => false
        | some rt => decide ((tn, c.name) ∈ revertLookup rt.revert_foreign_tables tn)) := by
  unfold columnOk
  rw [if_pos hfk, hct]

/- The introspection invariant of one column is monotone under DbExtends. -/
theorem columnOk_mono {db db2 : Database} {tn : String} {c : DBColumn}
    (hext : DbExtends db db2) (h : columnOk db tn c = true) :
    columnOk db2 tn c = true := by
  by_cases hfk : c.is_foreign_key = true
  · cases hct : c.constraint_table with
    | none =>
        rw [columnOk_fk_none hfk hct] at h
        simp at h
    | some ref =>
        rw [columnOk_fk_some hfk hct] at h ⊢
        cases hlk : lookupTable db ref with
        | none => rw [hlk] at h; simp at h
        | some rt =>
            rw [hlk] at h
            obtain ⟨rt2, hlk2, hmono⟩ := hext ref rt hlk
            rw [hlk2]
            simp only [decide_eq_true_eq] at h ⊢
            exact hmono _ _ h
  · exact columnOk_of_not_fk hfk

/- Unfolding of the whole-database invariant. -/
theorem invariantHolds_iff {db : Database} :
    invariantHolds db = true ↔
      ∀ p ∈ (db : List (String × DBTable)), ∀ c ∈ p.2.columns,
        columnOk db p.1 c = true := by
  unfold invariantHolds
  simp [List.all_eq_true]

/- applyConstraint does not change the column name. -/
theorem applyConstraint_name (ref : Option String) (ct : Option ConstraintTypesEnum)
    (c0 : DBColumn) : (applyConstraint ref ct c0).name = c0.name := by
  unfold applyConstraint
  cases ct with
  | none => rfl
  | some ct1 =>
      by_cases h : ct1 = ConstraintTypesEnum.foreignKey <;> simp [h]

/- The updated table keeps the pending columns list. -/
theorem updatedTable_columns (t : DBTable) (pc : DBColumn × List DBColumn) :
    (updatedTable t pc).columns = pc.2 := by
  unfold updatedTable
  split <;> rfl

/- The updated table keeps its revert_foreign_tables. -/
theorem updatedTable_revert (t : DBTable) (pc : DBColumn × List DBColumn) :
    (updatedTable t pc).revert_foreign_tables = t.revert_foreign_tables := by
  unfold updatedTable
  split <;> rfl

/- Every column of the pending columns list is the appended column or an
old column of the table. -/
theorem pendingColumn_mem {cfg : KeyConfig} {t : DBTable} {op : AppendOp}
    {ref : Option String} {c : DBColumn}
    (h : c ∈ (pendingColumn cfg t op ref).2) :
    c = (pendingColumn cfg t op ref).1 ∨ c ∈ t.columns := by
  unfold pendingColumn at h ⊢
  cases hf : t.columns.find? (fun c => c.name = op.column_name) with
  | none =>
      rw [hf] at h
      rcases List.mem_append.mp h with h1 | h1
      · exact Or.inr h1
      · simp at h1
        exact Or.inl h1
  | some c0 =>
      rw [hf] at h
      obtain ⟨c1, hc1, heq⟩ := List.mem_map.mp h
      by_cases hn : c1.name = op.column_name
      · rw [if_pos hn] at heq
        exact Or.inl heq.symm
      · rw [if_neg hn] at heq
        exact Or.inr (heq ▸ hc1)

/- Evaluation of applyConstraint without a constraint. -/
theorem applyConstraint_none (ref : Option String) (c0 : DBColumn) :
    applyConstraint ref none c0 = c0 := rfl

/- Evaluation of applyConstraint on a foreign key constraint. -/
theorem applyConstraint_fk (ref : Option String) (c0 : DBColumn) :
    applyConstraint ref (some ConstraintTypesEnum.foreignKey) c0 =
      { c0 with
        constraint_type := c0.constraint_type ++ [ConstraintTypesEnum.foreignKey],
        constraint_table := ref } := rfl

/- Evaluation of applyConstraint on a non-foreign-key constraint. -/
theorem applyConstraint_not_fk (ref : Option String) (ct1 : ConstraintTypesEnum)
    (c0 : DBColumn) (h : ct1 ≠ ConstraintTypesEnum.foreignKey) :
    applyConstraint ref (some ct1) c0 =
      { c0 with constraint_type := c0.constraint_type ++ [ct1] } := by
  unfold applyConstraint
  simp [h]

/- Evaluation of pendingColumn when the column already exists. -/
theorem pendingColumn_eq_found {cfg : KeyConfig} {t : DBTable} {op : AppendOp}
    {ref : Option String} {c0 : DBColumn}
    (hf : t.columns.find? (fun c => c.name = op.column_name) = some c0) :
    pendingColumn cfg t op ref =
      (applyConstraint ref op.constraint_type c0,
        t.columns.map (fun c =>
          if c.name = op.column_name then applyConstraint ref op.constraint_type c0
          else c)) := by
  unfold pendingColumn
  rw [hf]

/- Evaluation of pendingColumn when the column is created. -/
theorem pendingColumn_eq_new {cfg : KeyConfig} {t : DBTable} {op : AppendOp}
    {ref : Option String}
    (hf : t.columns.find? (fun c => c.name = op.column_name) = none) :
    pendingColumn cfg t op ref =
      (mkNewColumn cfg op ref, t.columns ++ [mkNewColumn cfg op ref]) := by
  unfold pendingColumn
  rw [hf]

/- The referent, when the appended column is a foreign key: either it was
resolved in this call, or it was inherited from the existing column. -/
theorem pendingColumn_fk_cases {cfg : KeyConfig} {t : DBTable} {op : AppendOp}
    {ref : Option String} {r : String}
    (hfk : (pendingColumn cfg t op ref).1.is_foreign_key = true)
    (hct : (pendingColumn cfg t op ref).1.constraint_table = some r) :
    ref = some r ∨
      ∃ c0 ∈ t.columns, c0.is_foreign_key = true ∧ c0.constraint_table = some r := by
  cases hf : t.columns.find? (fun c => c.name = op.column_name) with
  | none =>
      rw [pendingColumn_eq_new hf] at hct
      exact Or.inl hct
  | some c0 =>
      have hc0mem : c0 ∈ t.columns := List.mem_of_find?_eq_some hf
      rw [pendingColumn_eq_found hf] at hfk hct
      cases hop : op.constraint_type with
      | none =>
          rw [hop, applyConstraint_none] at hfk hct
          exact Or.inr ⟨c0, hc0mem, hfk, hct⟩
      | some ct1 =>
          rw [hop] at hfk hct
          by_cases hctl : ct1 = ConstraintTypesEnum.foreignKey
          · subst hctl
            rw [applyConstraint_fk] at hct
            exact Or.inl hct
          · rw [applyConstraint_not_fk ref ct1 c0 hctl] at hfk hct
            refine Or.inr ⟨c0, hc0mem, ?_, hct⟩
            unfold DBColumn.is_foreign_key at hfk ⊢
            simp only [decide_eq_true_eq, List.mem_append, List.mem_singleton] at hfk
            rcases hfk with h1 | h1
            · simpa using h1
            · exact absurd h1.symm hctl

/- Evaluation of resolveConstraintTable on a present name. -/
theorem resolveConstraintTable_some_eq {db : Database} {n : String} :
    resolveConstraintTable db (some n) =
      if (lookupTable db n).isSome then some n else none := rfl

/- A resolved referent name is present in the table map. -/
theorem resolve_isSome {db : Database} {ctn : Option String} {r : String}
    (h : resolveConstraintTable db ctn = some r) :
    (lookupTable db r).isSome := by
  cases ctn with
  | none => simp [resolveConstraintTable] at h
  | some n =>
      rw [resolveConstraintTable_some_eq] at h
      by_cases hs : (lookupTable db n).isSome
      · rw [if_pos hs] at h
        have hnr : n = r := Option.some.inj h
        subst hnr
        exact hs
      · rw [if_neg hs] at h
        simp at h

/- A column satisfying the invariant has its referent in the table map. -/
theorem columnOk_fk_lookup {db : Database} {tn : String} {c : DBColumn} {r : String}
    (h : columnOk db tn c = true) (hfk : c.is_foreign_key = true)
    (hct : c.constraint_table = some r) :
    (lookupTable db r).isSome := by
  rw [columnOk_fk_some hfk hct] at h
  cases hlk : lookupTable db r with
  | none => rw [hlk] at h; simp at h
  | some rt => simp

/- Invariant preservation for the foreign-key branch of append_column. -/
theorem invariant_step_fk {cfg : KeyConfig} {db : Database} {op : AppendOp} {t : DBTable}
    {refName : String}
    (hlk : lookupTable db op.table_name = some t)
    (hinv : invariantHolds db = true)
    (hfk : (pendingColumn cfg t op (resolveConstraintTable db op.constraint_table_name)).1.is_foreign_key = true)
    (hct : (pendingColumn cfg t op (resolveConstraintTable db op.constraint_table_name)).1.constraint_table = some refName) :
    invariantHolds (registerRevert
      (updateTable db op.table_name
        (fun _ => updatedTable t
          (pendingColumn cfg t op (resolveConstraintTable db op.constraint_table_name))))
      refName op.table_name
      (pendingColumn cfg t op (resolveConstraintTable db op.constraint_table_name)).1.name) = true := by
  set ref := resolveConstraintTable db op.constraint_table_name with href
  set pc := pendingColumn cfg t op ref with hpc
  set t2 := updatedTable t pc with ht2
  set db1 := updateTable db op.table_name (fun _ => t2) with hdb1
  set db2 := registerRevert db1 refName op.table_name pc.1.name with hdb2
  have hrefSome : (lookupTable db refName).isSome := by
    rcases pendingColumn_fk_cases hfk hct with hr | ⟨c0, hc0, hfk0, hct0⟩
    · exact resolve_isSome (by rw [← href]; exact hr)
    · exact columnOk_fk_lookup
        (invariantHolds_iff.mp hinv (op.table_name, t) (lookupTable_mem hlk) c0 hc0)
        hfk0 hct0
  have hext1 : DbExtends db db1 :=
    dbExtends_updateTable_const hlk (updatedTable_revert t pc)
  have hext2 : DbExtends db1 db2 :=
    dbExtends_registerRevert db1 refName op.table_name pc.1.name
  have hext : DbExtends db db2 := dbExtends_trans hext1 hext2
  have hlk1ref : ∃ u, lookupTable db1 refName = some u := by
    rw [hdb1, lookupTable_updateTable]
    by_cases hr : refName = op.table_name
    · rw [if_pos hr, hr, hlk]
      exact ⟨t2, rfl⟩
    · rw [if_neg hr]
      exact Option.isSome_iff_exists.mp hrefSome
  obtain ⟨u, hu⟩ := hlk1ref
  have hlk2ref : lookupTable db2 refName =
      some { u with
        revert_foreign_tables :=
          revertAdd u.revert_foreign_tables op.table_name (op.table_name, pc.1.name) } := by
    rw [hdb2]
    unfold registerRevert
    rw [lookupTable_updateTable, if_pos rfl, hu]
    rfl
  have hpcOk : columnOk db2 op.table_name pc.1 = true := by
    rw [columnOk_fk_some hfk hct, hlk2ref]
    exact decide_eq_true
      (revertLookup_revertAdd_self u.revert_foreign_tables op.table_name
        (op.table_name, pc.1.name))
  rw [invariantHolds_iff]
  intro p hp c hc
  rw [hdb2] at hp
  unfold registerRevert updateTable at hp
  obtain ⟨q1, hq1, hpq⟩ := List.mem_map.mp hp
  rw [hdb1] at hq1
  unfold updateTable at hq1
  obtain ⟨q0, hq0, hq01⟩ := List.mem_map.mp hq1
  have hp1 : p.1 = q1.1 := by rw [← hpq]; split <;> rfl
  have hpcols : p.2.columns = q1.2.columns := by rw [← hpq]; split <;> rfl
  have hq11 : q1.1 = q0.1 := by rw [← hq01]; split <;> rfl
  have hq1cols : q1.2.columns = if q0.1 = op.table_name then pc.2 else q0.2.columns := by
    rw [← hq01]
    by_cases h : q0.1 = op.table_name
    · rw [if_pos h, if_pos h]
      exact updatedTable_columns t pc
    · rw [if_neg h, if_neg h]
  by_cases hq0tn : q0.1 = op.table_name
  · rw [hpcols, hq1cols, if_pos hq0tn] at hc
    rcases pendingColumn_mem hc with hcpc | hcold
    · rw [hp1, hq11, hq0tn, hcpc]
      exact hpcOk
    · have hok : columnOk db op.table_name c = true :=
        invariantHolds_iff.mp hinv (op.table_name, t) (lookupTable_mem hlk) c hcold
      rw [hp1, hq11, hq0tn]
      exact columnOk_mono hext hok
  · rw [hpcols, hq1cols, if_neg hq0tn] at hc
    have hok : columnOk db q0.1 c = true := invariantHolds_iff.mp hinv q0 hq0 c hc
    rw [hp1, hq11]
    exact columnOk_mono hext hok

/- Invariant preservation for the non-foreign-key branch of append_column. -/
theorem invariant_step_nofk {cfg : KeyConfig} {db : Database} {op : AppendOp} {t : DBTable}
    (hlk : lookupTable db op.table_name = some t)
    (hinv : invariantHolds db = true)
    (hfk : ¬ (pendingColumn cfg t op (resolveConstraintTable db op.constraint_table_name)).1.is_foreign_key = true) :
    invariantHolds (updateTable db op.table_name
      (fun _ => updatedTable t
        (pendingColumn cfg t op (resolveConstraintTable db op.constraint_table_name)))) = true := by
  set ref := resolveConstraintTable db op.constraint_table_name with href
  set pc := pendingColumn cfg t op ref with hpc
  set t2 := updatedTable t pc with ht2
  set db1 := updateTable db op.table_name (fun _ => t2) with hdb1
  have hext1 : DbExtends db db1 :=
    dbExtends_updateTable_const hlk (updatedTable_revert t pc)
  rw [invariantHolds_iff]
  intro p hp c hc
  rw [hdb1] at hp
  unfold updateTable at hp
  obtain ⟨q0, hq0, hq01⟩ := List.mem_map.mp hp
  have hp1 : p.1 = q0.1 := by rw [← hq01]; split <;> rfl
  have hpcols : p.2.columns = if q0.1 = op.table_name then pc.2 else q0.2.columns := by
    rw [← hq01]
    by_cases h : q0.1 = op.table_name
    · rw [if_pos h, if_pos h]
      exact updatedTable_columns t pc
    · rw [if_neg h, if_neg h]
  by_cases hq0tn : q0.1 = op.table_name
  · rw [hpcols, if_pos hq0tn] at hc
    rcases pendingColumn_mem hc with hcpc | hcold
    · rw [hcpc]
      exact columnOk_of_not_fk hfk
    · have hok : columnOk db op.table_name c = true :=
        invariantHolds_iff.mp hinv (op.table_name, t) (lookupTable_mem hlk) c hcold
      rw [hp1, hq0tn]
      exact columnOk_mono hext1 hok
  · rw [hpcols, if_neg hq0tn] at hc
    have hok : columnOk db q0.1 c = true := invariantHolds_iff.mp hinv q0 hq0 c hc
    rw [hp1]
    exact columnOk_mono hext1 hok

/- Evaluation of appendColumn on a present owning table. -/
theorem appendColumn_eq_some {cfg : KeyConfig} {db : Database} {op : AppendOp}
    {t : DBTable} (hlk : lookupTable db op.table_name = some t) :
    appendColumn cfg db op =
      (if (pendingColumn cfg t op (resolveConstraintTable db op.constraint_table_name)).1.is_foreign_key then
        match (pendingColumn cfg t op (resolveConstraintTable db op.constraint_table_name)).1.constraint_table with
        | none => Except.error ("Wrong foreign key column " ++ op.column_name)
        | some refName =>
            Except.ok (registerRevert
              (updateTable db op.table_name
                (fun _ => updatedTable t
                  (pendingColumn cfg t op (resolveConstraintTable db op.constraint_table_name))))
              refName op.table_name
              (pendingColumn cfg t op (resolveConstraintTable db op.constraint_table_name)).1.name)
      else
        Except.ok (updateTable db op.table_name
          (fun _ => updatedTable t
            (pendingColumn cfg t op (resolveConstraintTable db op.constraint_table_name))))) := by
  unfold appendColumn
  rw [hlk]

/- Evaluation of appendColumn on an unknown owning table. -/
theorem appendColumn_eq_none {cfg : KeyConfig} {db : Database} {op : AppendOp}
    (hlk : lookupTable db op.table_name = none) :
    appendColumn cfg db op = Except.error ("KeyError: " ++ op.table_name) := by
  unfold appendColumn
  rw [hlk]

/- Invariant preservation for one successful append_column. -/
theorem appendColumn_invariant_step {cfg : KeyConfig} {db : Database} {op : AppendOp}
    {db2 : Database} (hinv : invariantHolds db = true)
    (h : appendColumn cfg db op = Except.ok db2) :
    invariantHolds db2 = true := by
  cases hlk : lookupTable db op.table_name with
  | none =>
      rw [appendColumn_eq_none hlk] at h
      exact Except.noConfusion h
  | some t =>
      rw [appendColumn_eq_some hlk] at h
      by_cases hfk : (pendingColumn cfg t op (resolveConstraintTable db op.constraint_table_name)).1.is_foreign_key
      · rw [if_pos hfk] at h
        cases hct : (pendingColumn cfg t op (resolveConstraintTable db op.constraint_table_name)).1.constraint_table with
        | none =>
            rw [hct] at h
            exact Except.noConfusion h
        | some refName =>
            rw [hct] at h
            have hdb2 := (Except.ok.inj h).symm
            rw [hdb2]
            exact invariant_step_fk hlk hinv hfk hct
      · rw [if_neg hfk] at h
        have hdb2 := (Except.ok.inj h).symm
        rw [hdb2]
        exact invariant_step_nofk hlk hinv hfk

/- Invariant preservation along a whole introspection run. -/
theorem processOps_invariant {cfg : KeyConfig} :
    ∀ (ops : List AppendOp) (db db2 : Database), invariantHolds db = true →
      processOps cfg db ops = Except.ok db2 → invariantHolds db2 = true := by
  intro ops
  induction ops with
  | nil =>
      intro db db2 hinv h
      have hdb : db = db2 := Except.ok.inj h
      rw [← hdb]
      exact hinv
  | cons op rest ih =>
      intro db db2 hinv h
      unfold processOps at h
      cases hap : appendColumn cfg db op with
      | error e =>
          rw [hap] at h
          exact Except.noConfusion h
      | ok db1 =>
          rw [hap] at h
          exact ih db1 db2 (appendColumn_invariant_step hinv hap) h

/- Tables of the initial database have no columns. -/
theorem mem_initDatabase {names : List String} {g0 : Nat} {p : String × DBTable}
    (hp : p ∈ initDatabase names g0) : p.2.columns = [] := by
  induction names generalizing g0 with
  | nil =>
      unfold initDatabase at hp
      exact (List.not_mem_nil p hp).elim
  | cons n rest ih =>
      unfold initDatabase at hp
      rcases List.mem_cons.mp hp with h | h
      · rw [h]
        rfl
      · exact ih h

/- The initial database satisfies the introspection invariant. -/
theorem initDatabase_invariant (names : List String) (g0 : Nat) :
    invariantHolds (initDatabase names g0) = true := by
  rw [invariantHolds_iff]
  intro p hp c hc
  rw [mem_initDatabase hp] at hc
  simp at hc

/- The column produced with an unresolved referent and a foreign key
constraint has no referent and is a foreign key. -/
theorem pendingColumn_fk_unresolved {cfg : KeyConfig} {t : DBTable} {op : AppendOp}
    (hop : op.constraint_type = some ConstraintTypesEnum.foreignKey) :
    (pendingColumn cfg t op none).1.is_foreign_key = true ∧
      (pendingColumn cfg t op none).1.constraint_table = none := by
  cases hf : t.columns.find? (fun c => c.name = op.column_name) with
  | none =>
      rw [pendingColumn_eq_new hf]
      constructor
      · unfold mkNewColumn DBColumn.is_foreign_key
        rw [hop]
        simp
      · rfl
  | some c0 =>
      rw [pendingColumn_eq_found hf, hop, applyConstraint_fk]
      constructor
      · unfold DBColumn.is_foreign_key
        simp
      · rfl

/-- C4: after an introspection run completes without error, every foreign
key column of every table has a referent table present in the model and
is registered in that referent revert_foreign_tables under its owning
table; and appending a foreign key column whose referent table is absent
raises a fatal error instead of establishing the edge. -/
theorem introspection_invariant_and_fk_error :
    (∀ (cfg : KeyConfig) (names : List String) (g0 : Nat) (ops : List AppendOp)
        (db : Database),
        processOps cfg (initDatabase names g0) ops = Except.ok db →
        invariantHolds db = true) ∧
    (∀ (cfg : KeyConfig) (db : Database) (op : AppendOp),
        op.constraint_type = some ConstraintTypesEnum.foreignKey →
        resolveConstraintTable db op.constraint_table_name = none →
        ∃ msg, appendColumn cfg db op = Except.error msg) := by
  constructor
  · intro cfg names g0 ops db h
    exact processOps_invariant ops (initDatabase names g0) db
      (initDatabase_invariant names g0) h
  · intro cfg db op hop hres
    cases hlk : lookupTable db op.table_name with
    | none => exact ⟨_, appendColumn_eq_none hlk⟩
    | some t =>
        obtain ⟨h1, h2⟩ := @pendingColumn_fk_unresolved cfg t op hop
        refine ⟨"Wrong foreign key column " ++ op.column_name, ?_⟩
        rw [appendColumn_eq_some hlk, hres, if_pos h1, h2]

/-- Witness for C4: a two-table introspection run with a primary key on
each table and one foreign key produces a database satisfying the
invariant, and appending a foreign key column towards an absent table
errors. -/
theorem introspection_invariant_and_fk_error_witness :
    invariantHolds exC4Db = true ∧
      (∃ msg, appendColumn exC4Cfg (initDatabase exC4Names 0) badRefOp =
        Except.error msg) := by
  constructor
  · exact introspection_invariant_and_fk_error.1 exC4Cfg exC4Names 0 exC4Ops exC4Db
      (by rfl)
  · exact introspection_invariant_and_fk_error.2 exC4Cfg (initDatabase exC4Names 0)
      badRefOp (by rfl) (by rfl)

end Databaser
